import Mathlib

/-!
Verification development for the Root-Mask-and-Skeletons application.

Shallow embedding of the parts of the code the claims are about:

* `MaskTracing` — the undo/redo history stacks, painting operations and the
  coordinate clamping of the mask tracing widget
  (`src/mask_tracing_interface.py`, `src/enhanced_mask_tracing_interface.py`);
* `FloodFill` — the fill-tool region selection of
  `MaskTracingInterface.flood_fill` (`src/mask_tracing_interface.py`);
* `RootLength` — `RootLengthCalculatorThread` (`src/root_length_inference_handler.py`);
* `Skeleton` — `SkeletonGeneratorThread.run` (`src/generate_skeleton_handler.py`);
* `MaskGen` — `MaskGenerationHandler` (`src/mask_generation_handler.py`);
* `DashServer` — the Dash server launches and the web-view URL
  (`src/dash_app.py`, `src/root_length_visulization.py`);
* `ImageScan` — `ImageLoaderThread._load_from_folder` and the mask
  file-name convention (`src/image_manager.py`, `src/mask_tracing_interface.py`).

Qt pixmaps are modelled by an abstract type `M` of mask states; file-system
and subprocess facts that the code branches on (a file exists, a subprocess
exit code) are explicit inputs of the embedded functions.
-/

namespace MaskTracing

/-- Upper bound on the history stacks: `self.max_stack_size = 25` in
`MaskTracingInterface.__init__`. -/
def max_stack_size : Nat := 25

/-- The mutable state of `MaskTracingInterface` that the history operations
touch: the current mask pixmap and the two stacks.  A Python list used as a
stack (`append` at the end, `pop()` from the end, `pop(0)` from the front)
is a Lean list whose last element is the top of the stack. -/
structure MaskState (M : Type) where
  mask : M
  undo_stack : List M
  redo_stack : List M

/-- Python `stack.append(x)` followed by
`if len(stack) > self.max_stack_size: stack.pop(0)` — the push-with-bound
used by `save_for_undo`, `undo` and `redo`. -/
def pushBounded {M : Type} (s : List M) (x : M) : List M :=
  if (s ++ [x]).length > max_stack_size then (s ++ [x]).tail else s ++ [x]

/-- `MaskTracingInterface.save_for_undo` (mask present): push a copy of the
current mask onto the undo stack with the size bound, then clear the redo
stack. -/
def save_for_undo {M : Type} (st : MaskState M) : MaskState M :=
  { st with
    undo_stack := pushBounded st.undo_stack st.mask
    redo_stack := [] }

/-- `MaskTracingInterface.undo`: if the undo stack is nonempty, push the
current mask onto the redo stack (with the size bound) and restore the top
of the undo stack. -/
def undo {M : Type} (st : MaskState M) : MaskState M :=
  match st.undo_stack.getLast? with
  | none => st
  | some prev =>
      { mask := prev
        undo_stack := st.undo_stack.dropLast
        redo_stack := pushBounded st.redo_stack st.mask }

/-- `MaskTracingInterface.redo`: if the redo stack is nonempty, push the
current mask onto the undo stack (with the size bound) and restore the top
of the redo stack. -/
def redo {M : Type} (st : MaskState M) : MaskState M :=
  match st.redo_stack.getLast? with
  | none => st
  | some nxt =>
      { mask := nxt
        undo_stack := pushBounded st.undo_stack st.mask
        redo_stack := st.redo_stack.dropLast }

/-- A painting operation that first calls `save_for_undo` and then replaces
the mask by `f` of the old mask.  This is the shape of `draw_point` after the
save in `mousePressEvent` (brush stroke start), of `clear_mask`
(`f = fun _ => transparent`) and of `apply_sam2_mask` / `apply_sam2_auto_mask`
(`f` = compositing the SAM2 mask). -/
def paintOp {M : Type} (f : M → M) (st : MaskState M) : MaskState M :=
  let st1 := save_for_undo st
  { st1 with mask := f st1.mask }

/-- A fill-tool click: `mousePressEvent` calls `save_for_undo` and then
`flood_fill`, and `flood_fill` itself computes the new image from the current
mask, calls `save_for_undo` again, and installs the new image — so the
pre-operation mask is pushed twice. -/
def fillPressOp {M : Type} (f : M → M) (st : MaskState M) : MaskState M :=
  paintOp f (save_for_undo st)

/-- `clear_mask`: `save_for_undo` then fill the mask with transparent. -/
def clearMaskOp {M : Type} (transparent : M) (st : MaskState M) : MaskState M :=
  paintOp (fun _ => transparent) st

/-- One step of the history state machine, for reasoning about arbitrary
sequences of calls. -/
inductive HistOp (M : Type) where
  | save : HistOp M
  | undo : HistOp M
  | redo : HistOp M
  | paint (f : M → M) : HistOp M
  | fill (f : M → M) : HistOp M

/-- Apply one history operation. -/
def applyOp {M : Type} : HistOp M → MaskState M → MaskState M
  | .save, st => save_for_undo st
  | .undo, st => undo st
  | .redo, st => redo st
  | .paint f, st => paintOp f st
  | .fill f, st => fillPressOp f st

/-- Apply a sequence of history operations, oldest first. -/
def applyOps {M : Type} (ops : List (HistOp M)) (st : MaskState M) : MaskState M :=
  ops.foldl (fun s op => applyOp op s) st

/-- Both history stacks are within the size bound. -/
def stacksBounded {M : Type} (st : MaskState M) : Prop :=
  st.undo_stack.length ≤ max_stack_size ∧ st.redo_stack.length ≤ max_stack_size

/-- `MaskTracingGraphicsView.map_to_image`: the scene position is truncated
to integers and clamped into `[0, w-1] × [0, h-1]` where `w × h` is the size
of the current mask pixmap. -/
def map_to_image (w h ix iy : Int) : Int × Int :=
  (max 0 (min ix (w - 1)), max 0 (min iy (h - 1)))

/-- The bounded push always has the pushed element on top: the overflow pop
removes the *oldest* entry, never the new one. -/
theorem pushBounded_getLast? {M : Type} (s : List M) (x : M) :
    (pushBounded s x).getLast? = some x := by
  unfold pushBounded
  split
  · next hlen =>
      cases s with
      | nil => simp [max_stack_size] at hlen
      | cons a s' =>
          simp only [List.cons_append, List.tail_cons]
          exact List.getLast?_concat _
  · exact List.getLast?_concat _

/-- Pushing onto an empty stack gives the singleton stack. -/
theorem pushBounded_nil {M : Type} (x : M) : pushBounded ([] : List M) x = [x] := by
  simp [pushBounded, max_stack_size]

/-- Round trip for a generic painting operation (`save_for_undo` followed by
replacing the mask): `undo` restores the pre-operation mask and `redo` after
that restores the post-operation mask. -/
theorem paintOp_undo_redo {M : Type} (st : MaskState M) (f : M → M) :
    (undo (paintOp f st)).mask = st.mask
    ∧ (redo (undo (paintOp f st))).mask = (paintOp f st).mask := by
  constructor
  · simp [undo, paintOp, save_for_undo, pushBounded_getLast?]
  · simp [undo, redo, paintOp, save_for_undo, pushBounded_getLast?, pushBounded_nil]

/-- C1: for each painting operation that saves the mask state before
modifying it — brush stroke start (`mousePressEvent` + `draw_point`), flood
fill (`mousePressEvent` + `flood_fill`, which pushes the pre-state twice),
SAM2 mask application (`apply_sam2_mask` / `apply_sam2_auto_mask`) and
`clear_mask` — an immediate `undo` restores the pre-operation mask pixmap,
and an immediate `redo` after that undo restores the post-operation mask
pixmap. -/
theorem undo_redo_round_trip {M : Type} (st : MaskState M) (f : M → M) (transparent : M) :
    ((undo (paintOp f st)).mask = st.mask
      ∧ (redo (undo (paintOp f st))).mask = (paintOp f st).mask)
    ∧ ((undo (fillPressOp f st)).mask = st.mask
      ∧ (redo (undo (fillPressOp f st))).mask = (fillPressOp f st).mask)
    ∧ ((undo (clearMaskOp transparent st)).mask = st.mask
      ∧ (redo (undo (clearMaskOp transparent st))).mask = (clearMaskOp transparent st).mask) :=
  ⟨paintOp_undo_redo st f,
   ⟨(paintOp_undo_redo (save_for_undo st) f).1,
    (paintOp_undo_redo (save_for_undo st) f).2⟩,
   paintOp_undo_redo st (fun _ => transparent)⟩

/-- A bounded push keeps the stack within the bound. -/
theorem pushBounded_length {M : Type} (s : List M) (x : M)
    (h : s.length ≤ max_stack_size) :
    (pushBounded s x).length ≤ max_stack_size := by
  unfold pushBounded
  split
  · next h2 =>
      simp only [List.length_tail, List.length_append, List.length_cons,
        List.length_nil] at h2 ⊢
      omega
  · next h2 =>
      simp only [List.length_append, List.length_cons, List.length_nil] at h2 ⊢
      omega

/-- Every single history operation preserves the stack bound. -/
theorem applyOp_stacksBounded {M : Type} (op : HistOp M) (st : MaskState M)
    (h : stacksBounded st) : stacksBounded (applyOp op st) := by
  obtain ⟨hu, hr⟩ := h
  cases op with
  | save =>
      exact ⟨pushBounded_length _ _ hu, by simp [applyOp, save_for_undo, max_stack_size]⟩
  | undo =>
      cases hlast : st.undo_stack.getLast? with
      | none => simp only [applyOp, undo, hlast]; exact ⟨hu, hr⟩
      | some prev =>
          simp only [applyOp, undo, hlast]
          exact ⟨by simp only [List.length_dropLast]; omega, pushBounded_length _ _ hr⟩
  | redo =>
      cases hlast : st.redo_stack.getLast? with
      | none => simp only [applyOp, redo, hlast]; exact ⟨hu, hr⟩
      | some nxt =>
          simp only [applyOp, redo, hlast]
          exact ⟨pushBounded_length _ _ hu, by simp only [List.length_dropLast]; omega⟩
  | paint f =>
      exact ⟨pushBounded_length _ _ hu, by simp [applyOp, paintOp, save_for_undo, max_stack_size]⟩
  | fill f =>
      refine ⟨?_, by simp [applyOp, fillPressOp, paintOp, save_for_undo, max_stack_size]⟩
      exact pushBounded_length _ _ (pushBounded_length _ _ hu)

/-- C9: after any sequence of history operations (`save_for_undo`, `undo`,
`redo`, and the painting operations that call `save_for_undo`), both stacks
hold at most `max_stack_size = 25` saved states: every push pops the oldest
entry when the bound would be exceeded. -/
theorem stacks_stay_bounded {M : Type} (ops : List (HistOp M)) (st : MaskState M)
    (h : stacksBounded st) : stacksBounded (applyOps ops st) := by
  induction ops generalizing st with
  | nil => exact h
  | cons op rest ih => exact ih (applyOp op st) (applyOp_stacksBounded op st h)

/-- Witness for C9 at a concrete state and operation sequence. -/
theorem stacks_stay_bounded_witness :
    stacksBounded (⟨0, [], []⟩ : MaskState Nat)
    ∧ stacksBounded
        (applyOps [HistOp.save, HistOp.paint (fun m => m + 1), HistOp.undo, HistOp.redo]
          (⟨0, [], []⟩ : MaskState Nat)) :=
  have h0 : stacksBounded (⟨0, [], []⟩ : MaskState Nat) := by
    constructor <;> simp [stacksBounded, max_stack_size]
  ⟨h0, stacks_stay_bounded _ _ h0⟩

/-- C10: for every mouse position — also positions outside the image — with
a mask pixmap of width `w ≥ 1` and height `h ≥ 1` loaded,
`map_to_image` returns a point inside `[0, w-1] × [0, h-1]`. -/
theorem map_to_image_in_bounds (w h ix iy : Int) (hw : 1 ≤ w) (hh : 1 ≤ h) :
    0 ≤ (map_to_image w h ix iy).1 ∧ (map_to_image w h ix iy).1 ≤ w - 1
    ∧ 0 ≤ (map_to_image w h ix iy).2 ∧ (map_to_image w h ix iy).2 ≤ h - 1 := by
  simp only [map_to_image]
  omega

/-- Witness for C10: a 640 × 480 pixmap and a mouse position far outside the
image. -/
theorem map_to_image_in_bounds_witness :
    (1 : Int) ≤ 640 ∧ (1 : Int) ≤ 480
    ∧ (0 ≤ (map_to_image 640 480 (-35) 1000).1
        ∧ (map_to_image 640 480 (-35) 1000).1 ≤ 640 - 1
        ∧ 0 ≤ (map_to_image 640 480 (-35) 1000).2
        ∧ (map_to_image 640 480 (-35) 1000).2 ≤ 480 - 1) :=
  ⟨by decide, by decide, map_to_image_in_bounds 640 480 (-35) 1000 (by decide) (by decide)⟩

end MaskTracing

namespace FloodFill

/-- Pixels as `(x, y)` coordinates in the mask raster. -/
abbrev Pix := Nat × Nat

/-- All pixels of a `w × h` raster in row-major scan order — the order the
contour finder visits the image. -/
def scanPixels (w h : Nat) : List Pix :=
  (List.range h).flatMap (fun y => (List.range w).map (fun x => (x, y)))

/-- 8-neighbourhood: the connectivity of the binary-mask components and of
`cv2.floodFill` with flag `8`. -/
def neighbors8 (p : Pix) : List Pix :=
  [(p.1 + 1, p.2), (p.1, p.2 + 1), (p.1 + 1, p.2 + 1)]
    ++ (if 0 < p.1 then [(p.1 - 1, p.2), (p.1 - 1, p.2 + 1)] else [])
    ++ (if 0 < p.2 then [(p.1, p.2 - 1), (p.1 + 1, p.2 - 1)] else [])
    ++ (if 0 < p.1 ∧ 0 < p.2 then [(p.1 - 1, p.2 - 1)] else [])

/-- 4-neighbourhood: the connectivity of background paths (dual to
8-connected components) and of a classic scanline flood fill. -/
def neighbors4 (p : Pix) : List Pix :=
  [(p.1 + 1, p.2), (p.1, p.2 + 1)]
    ++ (if 0 < p.1 then [(p.1 - 1, p.2)] else [])
    ++ (if 0 < p.2 then [(p.1, p.2 - 1)] else [])

/-- One growth step of a reachability computation: add every candidate pixel
adjacent to the current set. -/
def grow (cand : List Pix) (nbrs : Pix → List Pix) (s : Finset Pix) : Finset Pix :=
  s ∪ (cand.filter (fun p => (nbrs p).any (fun q => decide (q ∈ s)))).toFinset

/-- The set reachable inside `cand` from `start` in at most `fuel` growth
steps; with `fuel ≥ w * h` this is the full connected reachable set. -/
def reach (cand : List Pix) (nbrs : Pix → List Pix) (start : List Pix) (fuel : Nat) : Finset Pix :=
  (grow cand nbrs)^[fuel] start.toFinset

/-- The foreground of `binary_mask = (alpha_channel > 0) * 255`. -/
def maskPixels (w h : Nat) (alpha : Pix → Nat) : List Pix :=
  (scanPixels w h).filter (fun p => decide (0 < alpha p))

/-- The 8-connected mask component of a mask pixel. -/
def compOf (w h : Nat) (alpha : Pix → Nat) (p : Pix) : Finset Pix :=
  reach (maskPixels w h alpha) neighbors8 [p] (w * h)

/-- The components of the binary mask, in scan order — the components whose
external contours `cv2.findContours(binary_mask, RETR_EXTERNAL,
CHAIN_APPROX_NONE)` returns. -/
def comps (w h : Nat) (alpha : Pix → Nat) : List (Finset Pix) :=
  ((maskPixels w h alpha).map (compOf w h alpha)).dedup

/-- Pixels not in `C` from which the image border is reachable by a
4-connected path avoiding `C`. -/
def outsideOf (w h : Nat) (C : Finset Pix) : Finset Pix :=
  reach ((scanPixels w h).filter (fun p => !(decide (p ∈ C))))
    neighbors4
    ((scanPixels w h).filter
      (fun p => !(decide (p ∈ C))
        && decide (p.1 = 0 ∨ p.2 = 0 ∨ p.1 = w - 1 ∨ p.2 = h - 1)))
    (w * h)

/-- The filled external contour of a mask component `C`: `C` together with
the background pixels it encloses.  This is the raster drawn by
`cv2.drawContours(local_mask, [contour], -1, 255, -1)` for the external
contour of `C`, and `cv2.pointPolygonTest(contour, seed, False) >= 0`
exactly when the seed lies in this set. -/
def filledSet (w h : Nat) (C : Finset Pix) : Finset Pix :=
  ((scanPixels w h).filter
    (fun p => decide (p ∈ C) || !(decide (p ∈ outsideOf w h C)))).toFinset

/-- The pixels selected by `local_mask == 255` in the no-contour branch.
`cv2.floodFill` returns the tuple `(retval, image, mask, rect)`, and the code
unpacks `_, local_mask, _, _ = cv2.floodFill(alpha_channel.copy(), ...)`, so
`local_mask` is the returned *image* — which `FLOODFILL_MASK_ONLY` leaves
unchanged (the flood region is written into `flood_mask`, with value 1, and
`flood_mask` is discarded).  `local_mask == 255` therefore selects every
pixel whose original alpha is exactly 255, wherever it lies — and no pixel at
all when the mask has no fully-opaque pixel. -/
def alpha255Set (w h : Nat) (alpha : Pix → Nat) : Finset Pix :=
  ((scanPixels w h).filter (fun p => decide (alpha p = 255))).toFinset

/-- The region the claim describes: a scanline flood fill over the mask
raster from the seed — the 4-connected region of pixels of the seed's
value. -/
def scanlineRegion (w h : Nat) (alpha : Pix → Nat) (seed : Pix) : Finset Pix :=
  reach ((scanPixels w h).filter (fun p => decide (alpha p = alpha seed)))
    neighbors4 [seed] (w * h)

/-- The set of pixels recolored (or erased) by
`MaskTracingInterface.flood_fill` (`local_mask == 255`): the code looks for
the first external contour containing the seed (`pointPolygonTest >= 0`) and
fills it with `drawContours(..., -1)`; when no contour contains the seed it
calls `cv2.floodFill` but keeps the *unchanged image* return value as
`local_mask`, so that branch selects exactly the pixels of alpha 255. -/
def codeFillRegion (w h : Nat) (alpha : Pix → Nat) (seed : Pix) : Finset Pix :=
  match (comps w h alpha).find? (fun C => decide (seed ∈ filledSet w h C)) with
  | some C => filledSet w h C
  | none => alpha255Set w h alpha

/-- The alpha raster after the fill writes the region back
(`arr[local_mask == 255, 3] = 0` for the eraser, `= 255` for the brush). -/
def applyFill (w h : Nat) (alpha : Pix → Nat) (seed : Pix) (eraser : Bool) : Pix → Nat :=
  fun p =>
    if p ∈ codeFillRegion w h alpha seed then (if eraser then 0 else 255) else alpha p

/-- The ring-shaped test mask: every pixel of the 3 × 3 raster is opaque
except the centre `(1, 1)`. -/
def donutAlpha : Pix → Nat :=
  fun p => if p = (1, 1) then 0 else 255

/-- A 3 × 1 test mask: only pixel `(0, 0)` is fully opaque. -/
def stripeAlpha : Pix → Nat :=
  fun p => if p = (0, 0) then 255 else 0

/-- The starting pixels are part of every reachable set. -/
theorem start_subset_reach (cand : List Pix) (nbrs : Pix → List Pix) (start : List Pix) :
    ∀ fuel, start.toFinset ⊆ reach cand nbrs start fuel := by
  intro fuel
  induction fuel with
  | zero => exact subset_refl _
  | succ n ih =>
      show start.toFinset ⊆ (grow cand nbrs)^[n + 1] start.toFinset
      rw [Function.iterate_succ_apply']
      exact subset_trans ih Finset.subset_union_left

/-- Every pixel belongs to its own component. -/
theorem mem_compOf (w h : Nat) (alpha : Pix → Nat) (p : Pix) :
    p ∈ compOf w h alpha p := by
  apply start_subset_reach (maskPixels w h alpha) neighbors8 [p] (w * h)
  simp

/-- A mask pixel lies in the filled external contour of its own component. -/
theorem seed_in_filled_compOf (w h : Nat) (alpha : Pix → Nat) (seed : Pix)
    (hmem : seed ∈ maskPixels w h alpha) :
    seed ∈ filledSet w h (compOf w h alpha seed) := by
  have hscan : seed ∈ scanPixels w h := (List.mem_filter.mp hmem).1
  rw [filledSet, List.mem_toFinset, List.mem_filter]
  refine ⟨hscan, ?_⟩
  have hd : decide (seed ∈ compOf w h alpha seed) = true :=
    decide_eq_true (mem_compOf w h alpha seed)
  simp [hd]

/-- When the seed is a mask pixel, some external contour passes the
`pointPolygonTest`, so the contour-filling branch is taken. -/
theorem maskSeed_selects_contour (w h : Nat) (alpha : Pix → Nat) (seed : Pix)
    (hmem : seed ∈ maskPixels w h alpha) :
    ∃ C, (comps w h alpha).find? (fun C => decide (seed ∈ filledSet w h C)) = some C := by
  rw [← Option.isSome_iff_exists, List.find?_isSome]
  refine ⟨compOf w h alpha seed, ?_, ?_⟩
  · rw [comps, List.mem_dedup]
    exact List.mem_map_of_mem _ hmem
  · exact decide_eq_true (seed_in_filled_compOf w h alpha seed hmem)

/-- C2 (amended): the fill tool is not a scanline flood fill of the mask
region containing the seed, in either branch.  When the seed lies inside or
on the external contour of some 8-connected mask component — in particular
whenever the seed is a mask pixel — the recolored set is that component's
*filled external contour*, the component plus the background holes it
encloses, which in general strictly contains the connected mask region of
the seed.  When the seed lies outside every external contour, the recolored
set is the set of all pixels of alpha exactly 255 wherever they lie:
`cv2.floodFill`'s computed region is discarded (the unchanged image return
value is compared against 255), so nothing is recolored on a
fully-transparent canvas and fully-opaque pixels far from the seed are
recolored. -/
theorem flood_fill_region (w h : Nat) (alpha : Pix → Nat) (seed : Pix) :
    ((comps w h alpha).find? (fun C => decide (seed ∈ filledSet w h C)) = none →
      codeFillRegion w h alpha seed = alpha255Set w h alpha)
    ∧ (∀ C, (comps w h alpha).find? (fun C => decide (seed ∈ filledSet w h C)) = some C →
        codeFillRegion w h alpha seed = filledSet w h C)
    ∧ (seed ∈ maskPixels w h alpha →
        ∃ C, (comps w h alpha).find? (fun C => decide (seed ∈ filledSet w h C)) = some C)
    ∧ codeFillRegion 3 3 donutAlpha (0, 0)
        = ({(0, 0), (1, 0), (2, 0), (0, 1), (1, 1), (2, 1), (0, 2), (1, 2), (2, 2)} :
            Finset Pix)
    ∧ scanlineRegion 3 3 donutAlpha (0, 0)
        = ({(0, 0), (1, 0), (2, 0), (0, 1), (2, 1), (0, 2), (1, 2), (2, 2)} : Finset Pix)
    ∧ codeFillRegion 1 1 (fun _ => 0) (0, 0) = (∅ : Finset Pix)
    ∧ codeFillRegion 3 1 stripeAlpha (2, 0) = ({(0, 0)} : Finset Pix)
    ∧ (2, 0) ∉ codeFillRegion 3 1 stripeAlpha (2, 0) := by
  refine ⟨?_, ?_, maskSeed_selects_contour w h alpha seed, by decide, by decide,
    by decide, by decide, by decide⟩
  · intro hnone
    unfold codeFillRegion
    rw [hnone]
  · intro C hsome
    unfold codeFillRegion
    rw [hsome]

/-- Witness for C2 (amended): the contour branch at the ring mask, and the
no-contour branch at an all-transparent 1 × 1 mask. -/
theorem flood_fill_region_witness :
    (0, 0) ∈ maskPixels 3 3 donutAlpha
    ∧ (∃ C, (comps 3 3 donutAlpha).find?
        (fun C => decide ((0, 0) ∈ filledSet 3 3 C)) = some C)
    ∧ (comps 3 3 donutAlpha).find? (fun C => decide ((0, 0) ∈ filledSet 3 3 C))
        = some ({(0, 0), (1, 0), (2, 0), (0, 1), (2, 1), (0, 2), (1, 2), (2, 2)} : Finset Pix)
    ∧ codeFillRegion 3 3 donutAlpha (0, 0)
        = filledSet 3 3
            ({(0, 0), (1, 0), (2, 0), (0, 1), (2, 1), (0, 2), (1, 2), (2, 2)} : Finset Pix)
    ∧ (comps 1 1 (fun _ => 0)).find? (fun C => decide ((0, 0) ∈ filledSet 1 1 C)) = none
    ∧ codeFillRegion 1 1 (fun _ => 0) (0, 0) = alpha255Set 1 1 (fun _ => 0) :=
  ⟨by decide,
   (flood_fill_region 3 3 donutAlpha (0, 0)).2.2.1 (by decide),
   by decide,
   (flood_fill_region 3 3 donutAlpha (0, 0)).2.1 _ (by decide),
   by decide,
   (flood_fill_region 1 1 (fun _ => 0) (0, 0)).1 (by decide)⟩

/-- C2 counterexample: on the ring mask, clicking the mask pixel `(0, 0)`
recolors the transparent centre `(1, 1)` as well — the recolored set is not
the connected region of the mask containing the seed that a scanline flood
fill would compute. -/
theorem flood_fill_fills_hole :
    (1, 1) ∈ codeFillRegion 3 3 donutAlpha (0, 0)
    ∧ (1, 1) ∉ scanlineRegion 3 3 donutAlpha (0, 0)
    ∧ donutAlpha (1, 1) = 0
    ∧ codeFillRegion 3 3 donutAlpha (0, 0) ≠ scanlineRegion 3 3 donutAlpha (0, 0) := by
  decide

end FloodFill

namespace Skeleton

/-- Outcome of the subprocess launched by `SkeletonGeneratorThread.run`:
either launching/monitoring it raises, or it terminates with an exit code. -/
inductive SubprocResult where
  | launchError (msg : String)
  | exit (code : Int)
deriving DecidableEq

/-- The facts of the environment that `SkeletonGeneratorThread.run` branches
on: how the subprocess ended and whether `index.html` exists in the results
directory afterwards. -/
structure SkelEnv where
  result : SubprocResult
  htmlExists : Bool

/-- One run emits exactly one of these signals (the model returns the single
signal emitted; `progress` emissions are not part of this claim). -/
inductive SkelSignal where
  | finished (dir : String)
  | error (msg : String)
deriving DecidableEq

/-- The argument vector built in `SkeletonGeneratorThread.run`:
`[sys.executable, script_path, "--dataroot", input_dir, "--results_dir", output_dir]`. -/
def skelCommand (pyExe inputDir outputDir : String) : List String :=
  [pyExe, "pix2pix_inference_script.py", "--dataroot", inputDir, "--results_dir", outputDir]

/-- `os.path.join(self.output_dir, "skeletonizer", "test_latest")`. -/
def resultsDir (outputDir : String) : String :=
  outputDir ++ "/skeletonizer/test_latest"

/-- `SkeletonGeneratorThread.run`: a non-zero exit code raises
`CalledProcessError` which is caught and reported through `error`; with exit
code `0`, `finished` carries the results directory if `index.html` exists
there, else `error` is emitted; an exception while launching is caught by the
generic handler. -/
def skelRun (outputDir : String) (env : SkelEnv) : SkelSignal :=
  match env.result with
  | .launchError msg => .error ("Unexpected error: " ++ msg)
  | .exit code =>
      if code ≠ 0 then
        .error ("Error running skeleton generation script: exit status " ++ toString code)
      else if env.htmlExists then
        .finished (resultsDir outputDir)
      else
        .error "HTML result file not found."

/-- C5: the inference script is invoked with `--dataroot <input_dir>` and
`--results_dir <output_dir>`; the run emits `finished`, carrying
`<output_dir>/skeletonizer/test_latest`, exactly when the subprocess exits
with code `0` and `index.html` exists in that directory; in every other case
(non-zero exit, missing HTML file, or an exception) it emits `error` with a
message.  The model returns the single signal of a run, so exactly one of
the two is emitted. -/
theorem skel_run_signals (pyExe inputDir outputDir : String) (env : SkelEnv) :
    skelCommand pyExe inputDir outputDir
      = [pyExe, "pix2pix_inference_script.py", "--dataroot", inputDir,
         "--results_dir", outputDir]
    ∧ (skelRun outputDir env = .finished (resultsDir outputDir)
        ↔ env.result = .exit 0 ∧ env.htmlExists = true)
    ∧ ((∃ msg, skelRun outputDir env = .error msg)
        ↔ ¬ (env.result = .exit 0 ∧ env.htmlExists = true)) := by
  obtain ⟨res, html⟩ := env
  refine ⟨rfl, ?_, ?_⟩
  · rcases res with msg | code
    · simp [skelRun]
    · by_cases hc : code = 0 <;> cases html <;> simp [skelRun, hc]
  · rcases res with msg | code
    · simp [skelRun]
    · by_cases hc : code = 0 <;> cases html <;> simp [skelRun, hc]

end Skeleton

namespace PyPath

/-- Python `os.path.dirname` on slash-separated paths: everything before the
last slash (empty when there is no slash). -/
def dirname (p : String) : String :=
  match (p.toList.reverse.dropWhile (fun c => c ≠ '/')).tail? with
  | none => ""
  | some rest => String.mk rest.reverse

/-- Python `os.path.basename` on slash-separated paths: everything after the
last slash. -/
def basename (p : String) : String :=
  String.mk (p.toList.reverse.takeWhile (fun c => c ≠ '/')).reverse

/-- Python `os.path.join a b` for a relative second component. -/
def join (a b : String) : String := a ++ "/" ++ b

end PyPath

namespace MaskGen

/-- The facts `MaskGenerationHandler._initialize_model` branches on: whether
`checkpoints/mask_weights/best_mask_model_V5.pth` exists, and whether
constructing/loading the model raises. -/
structure InitEnv where
  weightsExist : Bool
  loadOk : Bool

/-- Path of the checkpoint, relative to the directory of the source file:
`os.path.join(os.path.dirname(__file__), "checkpoints", "mask_weights",
"best_mask_model_V5.pth")`. -/
def weightsRelPath : String := "checkpoints/mask_weights/best_mask_model_V5.pth"

/-- `MaskGenerationHandler._initialize_model`: `self.model` is set only when
the weights file exists and loading succeeds; a missing file or an exception
leaves `self.model = None`. -/
def initModel (env : InitEnv) : Option Unit :=
  if env.weightsExist then
    if env.loadOk then some () else none
  else none

/-- The part of `MaskGenerationHandler`'s state that `generate_masks` reads
and writes: the loaded model and the generation thread it may create. -/
structure HandlerState where
  model : Option Unit
  generationThread : Option (String × String)

/-- What a call to `generate_masks` does from the caller's point of view. -/
inductive GenerateOutcome where
  | warned (msg : String)
  | started (inputDir outputDir : String)
deriving DecidableEq

/-- Warning shown when `self.model is None`. -/
def modelMissingMsg : String :=
  "Mask generation model not initialized. Please ensure model weights are present."

/-- Warning shown when no images are loaded. -/
def noImagesMsg : String := "No images loaded. Please load images first."

/-- `MaskGenerationHandler.generate_masks`: with `self.model is None` it
shows a warning box and returns with the state unchanged; with no loaded
images likewise; otherwise it creates and starts a `MaskGenerationThread`
on the directory of the first image and its `mask` subdirectory. -/
def generate_masks (st : HandlerState) (images : List String) :
    GenerateOutcome × HandlerState :=
  match st.model with
  | none => (.warned modelMissingMsg, st)
  | some _ =>
      match images with
      | [] => (.warned noImagesMsg, st)
      | firstImage :: _ =>
          let inputDir := PyPath.dirname firstImage
          let outputDir := inputDir ++ "/mask"
          (.started inputDir outputDir,
           { st with generationThread := some (inputDir, outputDir) })

/-- The handler state right after `MaskGenerationHandler.__init__`: the model
is whatever `_initialize_model` produced and no generation thread exists. -/
def initState (env : InitEnv) : HandlerState :=
  { model := initModel env, generationThread := none }

/-- C6: if the checkpoint file does not exist or loading it raises, the
handler's model is `None`, and every call to `generate_masks` in that state
shows the warning box and returns without creating or starting a
`MaskGenerationThread` — the handler state is unchanged. -/
theorem missing_weights_warns (env : InitEnv)
    (hbad : env.weightsExist = false ∨ env.loadOk = false) :
    (initState env).model = none
    ∧ (initState env).generationThread = none
    ∧ ∀ images : List String,
        generate_masks (initState env) images = (.warned modelMissingMsg, initState env) := by
  have hmodel : initModel env = none := by
    rcases hbad with h | h <;> simp [initModel, h]
  refine ⟨hmodel, rfl, fun images => ?_⟩
  simp [generate_masks, initState, hmodel]

/-- Witness for C6: the checkpoint file is absent. -/
theorem missing_weights_warns_witness :
    ((⟨false, true⟩ : InitEnv).weightsExist = false ∨ (⟨false, true⟩ : InitEnv).loadOk = false)
    ∧ ((initState ⟨false, true⟩).model = none
        ∧ (initState ⟨false, true⟩).generationThread = none
        ∧ ∀ images : List String,
            generate_masks (initState ⟨false, true⟩) images
              = (.warned modelMissingMsg, initState ⟨false, true⟩)) :=
  ⟨Or.inl rfl, missing_weights_warns ⟨false, true⟩ (Or.inl rfl)⟩

end MaskGen

namespace ImageScan

/-- Python `str.lower` on a file name (ASCII characters). -/
def lowerList (cs : List Char) : List Char := cs.map Char.toLower

/-- The extension test of `_load_from_folder`:
`file_name.lower().endswith((".png", ".jpg", ".jpeg"))`. -/
def isImageFile (cs : List Char) : Bool :=
  ".png".toList.isSuffixOf (lowerList cs)
    || ".jpg".toList.isSuffixOf (lowerList cs)
    || ".jpeg".toList.isSuffixOf (lowerList cs)

/-- The fake-image marker `"_fake.png"`. -/
def fakeTag : List Char := "_fake.png".toList

/-- The real-image marker `"_real.png"`. -/
def realTag : List Char := "_real.png".toList

/-- Helper for `removeAllNe`: `skip > 0` means that many characters of a
matched occurrence are still to be deleted. -/
def removeAllAux (t0 : Char) (ts : List Char) : Nat → List Char → List Char
  | _, [] => []
  | skip + 1, _ :: rest => removeAllAux t0 ts skip rest
  | 0, c :: rest =>
      if (t0 :: ts).isPrefixOf (c :: rest) then
        removeAllAux t0 ts ts.length rest
      else c :: removeAllAux t0 ts 0 rest

/-- Python `name.replace(t0 :: ts, "")` for a nonempty pattern: delete every
leftmost-first, non-overlapping occurrence of the pattern — *all* of them,
not only a final suffix. -/
def removeAllNe (t0 : Char) (ts : List Char) (cs : List Char) : List Char :=
  removeAllAux t0 ts 0 cs

/-- Python `name.replace(tag, "")` (for the nonempty tags used here). -/
def pyReplaceDel (tag : List Char) (cs : List Char) : List Char :=
  match tag with
  | [] => cs
  | t0 :: ts => removeAllNe t0 ts cs

/-- A Python dict from names to paths, in insertion order. -/
abbrev Dict : Type := List (List Char × List Char)

/-- Python `d[k] = v`: overwrite in place if the key exists, else append. -/
def dictInsert (k v : List Char) (d : Dict) : Dict :=
  if (List.any d (fun kv => kv.1 = k)) then
    List.map (fun kv => if kv.1 = k then (k, v) else kv) d
  else d ++ [(k, v)]

/-- Python `d.get(k)`. -/
def dictGet (k : List Char) (d : Dict) : Option (List Char) :=
  (List.find? (fun kv => kv.1 = k) d).map (fun kv => kv.2)

/-- The two dictionaries filled by `_load_from_folder`. -/
structure Dicts where
  images : Dict
  fake_images : Dict

/-- `os.path.join(folder_path, file_name)`. -/
def pathJoin (folder file : List Char) : List Char := folder ++ '/' :: file

/-- One iteration of the `"processed"`-mode loop body of
`ImageLoaderThread._load_from_folder`: image-extension files ending in
`_fake.png` go into `fake_images`, those ending in `_real.png` go into
`images`, each under the key `file_name.replace(tag, "")`. -/
def loadProcessedFile (folder file : List Char) (d : Dicts) : Dicts :=
  if isImageFile file then
    if fakeTag.isSuffixOf file then
      { d with fake_images :=
          dictInsert (pyReplaceDel fakeTag file) (pathJoin folder file) d.fake_images }
    else if realTag.isSuffixOf file then
      { d with images :=
          dictInsert (pyReplaceDel realTag file) (pathJoin folder file) d.images }
    else d
  else d

/-- The whole `"processed"`-mode scan of a folder listing. -/
def loadProcessedFolder (folder : List Char) (files : List (List Char)) (d : Dicts) : Dicts :=
  files.foldl (fun d f => loadProcessedFile folder f d) d

/-- `self.mask_directory = os.path.join(os.path.dirname(image_path), "mask")`
in `MaskTracingInterface.load_image`. -/
def mask_directory (imagePath : String) : String :=
  PyPath.join (PyPath.dirname imagePath) "mask"

/-- The path the existing mask is read from in `load_image`:
`os.path.join(self.mask_directory, os.path.basename(image_path))`. -/
def loadMaskPath (imagePath : String) : String :=
  PyPath.join (mask_directory imagePath) (PyPath.basename imagePath)

/-- The path the mask is written to in `save_mask`:
`os.path.normpath(os.path.join(self.mask_directory,
os.path.basename(self.current_image_path)))`. -/
def saveMaskPath (imagePath : String) : String :=
  PyPath.join (mask_directory imagePath) (PyPath.basename imagePath)

/-- Looking up a key in a dict it was appended to, when it was absent. -/
theorem dictGet_append_self (k v : List Char) :
    ∀ d : Dict, List.any d (fun kv => kv.1 = k) = false → dictGet k (d ++ [(k, v)]) = some v := by
  intro d
  induction d with
  | nil =>
      intro _
      simp [dictGet, List.find?_cons]
  | cons kv rest ih =>
      intro h
      rw [List.any_cons, Bool.or_eq_false_iff] at h
      have hstep : dictGet k ((kv :: rest) ++ [(k, v)]) = dictGet k (rest ++ [(k, v)]) := by
        simp only [List.cons_append, dictGet, List.find?_cons, h.1]
      rw [hstep]
      exact ih h.2

/-- Looking up a key in a dict after overwriting its value in place. -/
theorem dictGet_map_overwrite (k v : List Char) :
    ∀ d : Dict, List.any d (fun kv => kv.1 = k) = true →
      dictGet k (d.map (fun kv => if kv.1 = k then (k, v) else kv)) = some v := by
  intro d
  induction d with
  | nil => intro h; simp at h
  | cons kv rest ih =>
      intro h
      by_cases hk : kv.1 = k
      · simp [List.map_cons, if_pos hk, dictGet, List.find?_cons]
      · have h2 : rest.any (fun kv => decide (kv.1 = k)) = true := by
          rw [List.any_cons] at h
          rcases Bool.or_eq_true_iff.mp h with h1 | h2
          · exact absurd (of_decide_eq_true (by simpa using h1)) hk
          · exact h2
        have hneg : decide (kv.1 = k) = false := decide_eq_false hk
        have hstep : dictGet k ((kv :: rest).map (fun kv => if kv.1 = k then (k, v) else kv))
            = dictGet k (rest.map (fun kv => if kv.1 = k then (k, v) else kv)) := by
          simp only [List.map_cons, if_neg hk, dictGet, List.find?_cons, hneg]
        rw [hstep]
        exact ih h2

/-- Inserting then looking up the same key gives the inserted value. -/
theorem dictGet_dictInsert (k v : List Char) (d : Dict) :
    dictGet k (dictInsert k v d) = some v := by
  unfold dictInsert
  split
  · next hany => exact dictGet_map_overwrite k v d hany
  · next hany => exact dictGet_append_self k v d (Bool.eq_false_iff.mpr hany)

/-- Once inside a matched occurrence, the whole remaining pattern is
deleted. -/
theorem removeAllAux_skip_all (t0 : Char) (ts : List Char) :
    ∀ (l : List Char) (skip : Nat), l.length ≤ skip → removeAllAux t0 ts skip l = [] := by
  intro l
  induction l with
  | nil => intro skip _; cases skip <;> rfl
  | cons c rest ih =>
      intro skip h
      match skip with
      | s + 1 =>
          show removeAllAux t0 ts s rest = []
          exact ih s (by simpa using h)

/-- Deleting every occurrence of a pattern from `base ++ pattern`, when the
pattern occurs nowhere except as the final suffix, yields `base`. -/
theorem removeAllNe_append_tag (t0 : Char) (ts : List Char) :
    ∀ (base : List Char),
      (∀ i < base.length, ¬ ((t0 :: ts).isPrefixOf ((base ++ t0 :: ts).drop i) = true)) →
      removeAllNe t0 ts (base ++ t0 :: ts) = base := by
  intro base
  induction base with
  | nil =>
      intro _
      show removeAllAux t0 ts 0 (t0 :: ts) = []
      rw [removeAllAux, if_pos (by simp [List.isPrefixOf_iff_prefix])]
      exact removeAllAux_skip_all t0 ts ts ts.length (le_refl _)
  | cons c bs ih =>
      intro h
      have h0 := h 0 (by simp)
      simp only [List.drop_zero] at h0
      show removeAllAux t0 ts 0 (c :: (bs ++ t0 :: ts)) = c :: bs
      rw [removeAllAux, if_neg (by simpa using h0)]
      have hbs : ∀ i < bs.length,
          ¬ ((t0 :: ts).isPrefixOf ((bs ++ t0 :: ts).drop i) = true) := by
        intro i hi
        have := h (i + 1) (by simpa using Nat.succ_lt_succ hi)
        simpa [List.drop_succ_cons] using this
      exact congrArg (c :: ·) (ih hbs)

/-- A file of the form `<base>_fake.png` passes the image-extension test. -/
theorem isImageFile_append_fakeTag (base : List Char) :
    isImageFile (base ++ fakeTag) = true := by
  have h1 : ".png".toList <:+ lowerList fakeTag := by decide
  have h2 : lowerList fakeTag <:+ lowerList (base ++ fakeTag) := by
    simp only [lowerList, List.map_append]
    exact List.suffix_append _ _
  simp only [isImageFile, Bool.or_eq_true, List.isSuffixOf_iff_suffix]
  exact Or.inl (Or.inl (h1.trans h2))

/-- A file of the form `<base>_real.png` passes the image-extension test. -/
theorem isImageFile_append_realTag (base : List Char) :
    isImageFile (base ++ realTag) = true := by
  have h1 : ".png".toList <:+ lowerList realTag := by decide
  have h2 : lowerList realTag <:+ lowerList (base ++ realTag) := by
    simp only [lowerList, List.map_append]
    exact List.suffix_append _ _
  simp only [isImageFile, Bool.or_eq_true, List.isSuffixOf_iff_suffix]
  exact Or.inl (Or.inl (h1.trans h2))

/-- A file of the form `<base>_real.png` never ends in `_fake.png`: the two
markers have the same length and differ. -/
theorem fakeTag_not_suffix_realTag (base : List Char) :
    ¬ (fakeTag.isSuffixOf (base ++ realTag) = true) := by
  intro h
  rw [List.isSuffixOf_iff_suffix] at h
  obtain ⟨t, ht⟩ := h
  have hlen : t.length = base.length := by
    have := congrArg List.length ht
    simp only [List.length_append] at this
    have h9 : fakeTag.length = realTag.length := by decide
    omega
  have : fakeTag = realTag := List.append_inj_right ht hlen
  exact absurd this (by decide)

/-- C4 (amended): in a processed-images scan, every file `<base>_fake.png`
is registered in `fake_images` — and every file `<base>_real.png` in
`images` — under the key obtained by deleting *every* occurrence of the
marker (`_fake.png` resp. `_real.png`) from the file name, which equals
`<base>` whenever the marker occurs in the name only as its final suffix
(Python's `str.replace` deletes all occurrences, not only the suffix); and
the mask for an image is read from, and saved to,
`mask/<basename-of-image>` inside the image's own directory. -/
theorem scan_registration_and_mask_paths :
    (∀ (folder base : List Char) (d : Dicts),
        dictGet (pyReplaceDel fakeTag (base ++ fakeTag))
          ((loadProcessedFile folder (base ++ fakeTag) d).fake_images)
          = some (pathJoin folder (base ++ fakeTag)))
    ∧ (∀ (folder base : List Char) (d : Dicts),
        dictGet (pyReplaceDel realTag (base ++ realTag))
          ((loadProcessedFile folder (base ++ realTag) d).images)
          = some (pathJoin folder (base ++ realTag)))
    ∧ (∀ base : List Char,
        (∀ i < base.length, ¬ (fakeTag.isPrefixOf ((base ++ fakeTag).drop i) = true)) →
        pyReplaceDel fakeTag (base ++ fakeTag) = base)
    ∧ (∀ base : List Char,
        (∀ i < base.length, ¬ (realTag.isPrefixOf ((base ++ realTag).drop i) = true)) →
        pyReplaceDel realTag (base ++ realTag) = base)
    ∧ (∀ p : String,
        loadMaskPath p = PyPath.dirname p ++ "/mask/" ++ PyPath.basename p
        ∧ saveMaskPath p = loadMaskPath p) := by
  refine ⟨?_, ?_, ?_, ?_, ?_⟩
  · intro folder base d
    have hsfx : fakeTag.isSuffixOf (base ++ fakeTag) = true := by
      rw [List.isSuffixOf_iff_suffix]; exact List.suffix_append _ _
    unfold loadProcessedFile
    rw [if_pos (isImageFile_append_fakeTag base), if_pos hsfx]
    exact dictGet_dictInsert _ _ _
  · intro folder base d
    have hsfx : realTag.isSuffixOf (base ++ realTag) = true := by
      rw [List.isSuffixOf_iff_suffix]; exact List.suffix_append _ _
    unfold loadProcessedFile
    rw [if_pos (isImageFile_append_realTag base), if_neg (fakeTag_not_suffix_realTag base),
      if_pos hsfx]
    exact dictGet_dictInsert _ _ _
  · intro base h
    exact removeAllNe_append_tag '_' "fake.png".toList base h
  · intro base h
    exact removeAllNe_append_tag '_' "real.png".toList base h
  · intro p
    constructor
    · show (((PyPath.dirname p ++ "/") ++ "mask") ++ "/") ++ PyPath.basename p
        = (PyPath.dirname p ++ "/mask/") ++ PyPath.basename p
      congr 1
      rw [String.append_assoc (PyPath.dirname p) "/" "mask"]
      show (PyPath.dirname p ++ "/mask") ++ "/" = PyPath.dirname p ++ "/mask/"
      rw [String.append_assoc (PyPath.dirname p) "/mask" "/"]
      rfl
    · rfl

/-- C4 counterexample: the processed file named `x_fake.png_fake.png` — that
is `<base>_fake.png` with `<base> = "x_fake.png"` — is *not* registered
under `<base>`: Python's `replace` deletes every occurrence of `_fake.png`,
so the registration key is `"x"`. -/
theorem fake_key_is_not_base :
    dictGet "x_fake.png".toList
      (loadProcessedFile "proc".toList "x_fake.png_fake.png".toList ⟨[], []⟩).fake_images = none
    ∧ dictGet "x".toList
        (loadProcessedFile "proc".toList "x_fake.png_fake.png".toList ⟨[], []⟩).fake_images
      = some "proc/x_fake.png_fake.png".toList := by
  decide

/-- Witness for C4 (amended) at concrete names. -/
theorem scan_registration_and_mask_paths_witness :
    (∀ i < ("img1".toList).length,
        ¬ (fakeTag.isPrefixOf (("img1".toList ++ fakeTag).drop i) = true))
    ∧ pyReplaceDel fakeTag ("img1".toList ++ fakeTag) = "img1".toList
    ∧ dictGet (pyReplaceDel fakeTag ("img1".toList ++ fakeTag))
        ((loadProcessedFile "proc".toList ("img1".toList ++ fakeTag) ⟨[], []⟩).fake_images)
        = some (pathJoin "proc".toList ("img1".toList ++ fakeTag))
    ∧ loadMaskPath "dir/img1.png"
        = PyPath.dirname "dir/img1.png" ++ "/mask/" ++ PyPath.basename "dir/img1.png" :=
  ⟨by decide,
   scan_registration_and_mask_paths.2.2.1 "img1".toList (by decide),
   scan_registration_and_mask_paths.1 "proc".toList "img1".toList ⟨[], []⟩,
   (scan_registration_and_mask_paths.2.2.2.2 "dir/img1.png").1⟩

end ImageScan

namespace RootLength

/-- Numeric value of the maximal leading digit run (Python `int` of the
matched digit group). -/
def digitsVal (cs : List Char) : Nat :=
  (cs.takeWhile Char.isDigit).foldl (fun n c => 10 * n + (c.toNat - '0'.toNat)) 0

/-- Leftmost match of `tag(\d+)` — `re.search(r"T(\d+)", name)` and
`re.search(r"L(\d+)", name)` in `parse_image_name`: the first position where
`tag` is followed by at least one digit; the group is the maximal digit run
there. -/
def searchTagNum (tag : Char) : List Char → Option Nat
  | [] => none
  | c :: rest =>
      match rest with
      | [] => none
      | d :: _ =>
          if c = tag && d.isDigit then some (digitsVal rest) else searchTagNum tag rest

/-- Match of `(\d{4})\.(\d{2})\.(\d{2})` anchored at the head of the list,
returning the formatted date `f"{year}.{month}.{day}"`. -/
def dateAt (cs : List Char) : Option (List Char) :=
  match cs with
  | y1 :: y2 :: y3 :: y4 :: '.' :: m1 :: m2 :: '.' :: d1 :: d2 :: _ =>
      if [y1, y2, y3, y4, m1, m2, d1, d2].all Char.isDigit then
        some [y1, y2, y3, y4, '.', m1, m2, '.', d1, d2]
      else none
  | _ => none

/-- Leftmost match of the date pattern — `re.search` scans start positions
left to right. -/
def searchDate : List Char → Option (List Char)
  | [] => none
  | c :: rest =>
      match dateAt (c :: rest) with
      | some s => some s
      | none => searchDate rest

/-- Match of `_(\d{6})(?:_|$)` anchored at the head of the list, returning
the formatted time `HH:MM:SS`. -/
def timeAt (cs : List Char) : Option (List Char) :=
  match cs with
  | '_' :: h1 :: h2 :: m1 :: m2 :: s1 :: s2 :: rest =>
      if [h1, h2, m1, m2, s1, s2].all Char.isDigit &&
          (match rest with
            | [] => true
            | '_' :: _ => true
            | _ => false) then
        some [h1, h2, ':', m1, m2, ':', s1, s2]
      else none
  | _ => none

/-- Leftmost match of the time pattern. -/
def searchTime : List Char → Option (List Char)
  | [] => none
  | c :: rest =>
      match timeAt (c :: rest) with
      | some s => some s
      | none => searchTime rest

/-- The fields extracted by `RootLengthCalculatorThread.parse_image_name`. -/
structure NameInfo where
  tube : Option Nat
  pos : Option Nat
  date : Option String
  time : Option String
deriving DecidableEq

/-- `RootLengthCalculatorThread.parse_image_name`. -/
def parse_image_name (name : String) : NameInfo :=
  let cs := name.toList
  { tube := searchTagNum 'T' cs
    pos := searchTagNum 'L' cs
    date := (searchDate cs).map String.mk
    time := (searchTime cs).map String.mk }

/-- One entry of the `fake_images` dictionary handed to the thread, together
with what processing it does: `some s` means `preprocess_image` and
`calculate_root_length` succeed and the rendered `round(total_length, 2)` is
`s`; `none` means an exception is raised for this image (for example
`cv2.imread` returning `None` for an unreadable file). -/
structure ImgInput where
  name : String
  outcome : Option String
deriving DecidableEq

/-- One result dictionary appended to `results` in
`RootLengthCalculatorThread.run`. -/
structure CsvRow where
  image : String
  tube : Option Nat
  pos : Option Nat
  date : Option String
  time : Option String
  len : String
deriving DecidableEq

/-- The result row built for one image: the parsed fields on success, the
`None`-filled error entry with length `0` on an exception. -/
def processImage (inp : ImgInput) : CsvRow :=
  match inp.outcome with
  | some lenStr =>
      let info := parse_image_name inp.name
      { image := inp.name, tube := info.tube, pos := info.pos
        date := info.date, time := info.time, len := lenStr }
  | none =>
      { image := inp.name, tube := none, pos := none
        date := none, time := none, len := "0" }

/-- Python `x or float("inf")` on an optional int: both `None` and `0` are
falsy, so both become `+∞`. -/
def pyOrInf (o : Option Nat) : WithTop Nat :=
  match o with
  | none => ⊤
  | some 0 => ⊤
  | some n => (n : WithTop Nat)

/-- Python `x or ""` on an optional string. -/
def pyOrEmpty (o : Option String) : String := o.getD ""

/-- Sort keys are compared lexicographically, as Python compares the tuples
`(Tube or inf, Date or "", Time or "", Position or inf)`. -/
abbrev SortKey := Lex (WithTop Nat × Lex (String × Lex (String × WithTop Nat)))

/-- The sort key the code computes in `RootLengthCalculatorThread.run`. -/
def codeKey (r : CsvRow) : SortKey :=
  toLex (pyOrInf r.tube, toLex (pyOrEmpty r.date, toLex (pyOrEmpty r.time, pyOrInf r.pos)))

/-- The sort key the claim describes: only a *missing* Tube or Position
compares as `+∞`; a parsed value, `0` included, compares as itself. -/
def claimKey (r : CsvRow) : SortKey :=
  toLex ((match r.tube with | none => (⊤ : WithTop Nat) | some n => (n : WithTop Nat)),
    toLex (pyOrEmpty r.date,
      toLex (pyOrEmpty r.time,
        (match r.pos with | none => (⊤ : WithTop Nat) | some n => (n : WithTop Nat)))))

/-- Row order used by the code's `sorted(results, key=...)`. -/
def codeLe (a b : CsvRow) : Prop := codeKey a ≤ codeKey b

/-- Row order the claim describes. -/
def claimLe (a b : CsvRow) : Prop := claimKey a ≤ claimKey b

instance : DecidableRel codeLe :=
  fun a b => inferInstanceAs (Decidable (codeKey a ≤ codeKey b))

instance : DecidableRel claimLe :=
  fun a b => inferInstanceAs (Decidable (claimKey a ≤ claimKey b))

instance : IsTotal CsvRow codeLe :=
  ⟨fun a b => le_total (codeKey a) (codeKey b)⟩

instance : IsTrans CsvRow codeLe :=
  ⟨fun _ _ _ h1 h2 => le_trans h1 h2⟩

/-- The sorted result list: Python's `sorted` is a stable comparison sort;
it is modelled by insertion sort on the code's key. -/
def sortedResults (inputs : List ImgInput) : List CsvRow :=
  List.insertionSort codeLe (inputs.map processImage)

/-- Header row written by `RootLengthCalculatorThread.save_to_csv`. -/
def csvHeaders : List String :=
  ["Image", "Tube", "Position", "Date", "Time", "Length (mm)"]

/-- `csv.DictWriter` renders `None` as the empty string and an int via
`str`. -/
def renderOptNat (o : Option Nat) : String :=
  match o with
  | none => ""
  | some n => toString n

/-- Rendering of an optional string field. -/
def renderOptStr (o : Option String) : String := o.getD ""

/-- One data row as written by `save_to_csv` (only the header fields are
written; an `Error` key is dropped). -/
def renderRow (r : CsvRow) : List String :=
  [r.image, renderOptNat r.tube, renderOptNat r.pos,
   renderOptStr r.date, renderOptStr r.time, r.len]

/-- Name of the output CSV file. -/
def csvFileName : String := "root_lengths.csv"

/-- `os.path.join(os.path.dirname(self.output_dir), "root_lengths.csv")`. -/
def csvPath (outputDir : String) : String :=
  PyPath.join (PyPath.dirname outputDir) csvFileName

/-- The CSV table written by the thread: the header row followed by the
sorted data rows. -/
def csvTable (inputs : List ImgInput) : List (List String) :=
  csvHeaders :: (sortedResults inputs).map renderRow

/-- Progress value `int((i + 1) / total_images * 100)` emitted for image `i`
of `n`.  The Python expression uses float arithmetic; the rational floor
used here can differ by one on isolated values (float rounding), but agrees
on everything the claims state: the sequence is nondecreasing in `i` and the
value at `i = n - 1` is exactly `100`. -/
def pyProgress (n i : Nat) : Nat := 100 * (i + 1) / n

/-- A signal emission of `RootLengthCalculatorThread.run`. -/
inductive Emit where
  | progress (v : Nat)
  | finished (path : String)
deriving DecidableEq

/-- The progress values emitted by the loop in `run`, starting at image
index `i`: `self.progress.emit(...)` sits inside the `try` block, so an
image whose processing raises an exception emits nothing. -/
def progressEmits (n : Nat) : Nat → List ImgInput → List Nat
  | _, [] => []
  | i, inp :: rest =>
      match inp.outcome with
      | some _ => pyProgress n i :: progressEmits n (i + 1) rest
      | none => progressEmits n (i + 1) rest

/-- All signals emitted by one call of `RootLengthCalculatorThread.run`, in
order: the in-loop progress values, then `finished` with the CSV path. -/
def runEmits (inputs : List ImgInput) (outputDir : String) : List Emit :=
  (progressEmits inputs.length 0 inputs).map Emit.progress
    ++ [Emit.finished (csvPath outputDir)]

/-- Recognizer for the `finished` signal. -/
def isFinished : Emit → Bool
  | .finished _ => true
  | .progress _ => false

/-- The per-image progress value is monotone in the image index. -/
theorem pyProgress_mono (n : Nat) {i j : Nat} (h : i ≤ j) :
    pyProgress n i ≤ pyProgress n j :=
  Nat.div_le_div_right (Nat.mul_le_mul_left 100 (by omega))

/-- Every emitted progress value is the value of some index at or after the
starting index. -/
theorem progressEmits_mem {n : Nat} {l : List ImgInput} :
    ∀ {i x : Nat}, x ∈ progressEmits n i l → ∃ j, i ≤ j ∧ x = pyProgress n j := by
  induction l with
  | nil => intro i x hx; simp [progressEmits] at hx
  | cons inp rest ih =>
      intro i x hx
      obtain ⟨name, outcome⟩ := inp
      cases outcome with
      | some s =>
          simp only [progressEmits, List.mem_cons] at hx
          rcases hx with rfl | hx
          · exact ⟨i, le_refl i, rfl⟩
          · obtain ⟨j, hij, hxj⟩ := ih hx
            exact ⟨j, by omega, hxj⟩
      | none =>
          simp only [progressEmits] at hx
          obtain ⟨j, hij, hxj⟩ := ih hx
          exact ⟨j, by omega, hxj⟩

/-- The emitted progress values are nondecreasing. -/
theorem progressEmits_chain {n : Nat} {l : List ImgInput} :
    ∀ {i : Nat}, (progressEmits n i l).Chain' (· ≤ ·) := by
  induction l with
  | nil => intro i; simp [progressEmits]
  | cons inp rest ih =>
      intro i
      obtain ⟨name, outcome⟩ := inp
      cases outcome with
      | none => simpa only [progressEmits] using ih
      | some s =>
          simp only [progressEmits]
          rw [List.chain'_cons']
          refine ⟨?_, ih⟩
          intro b hb
          obtain ⟨j, hij, rfl⟩ := progressEmits_mem (List.mem_of_mem_head? hb)
          exact pyProgress_mono n (by omega)

/-- When no image raises, the loop emits the progress value of every index. -/
theorem progressEmits_allOk {n : Nat} {l : List ImgInput}
    (h : ∀ inp ∈ l, inp.outcome ≠ none) :
    ∀ i, progressEmits n i l = (List.range l.length).map (fun k => pyProgress n (i + k)) := by
  induction l with
  | nil => intro i; simp [progressEmits]
  | cons inp rest ih =>
      intro i
      obtain ⟨name, outcome⟩ := inp
      cases outcome with
      | none => exact absurd rfl (h ⟨name, none⟩ (List.mem_cons_self _ _))
      | some s =>
          have hrest : ∀ x ∈ rest, x.outcome ≠ none :=
            fun x hx => h x (List.mem_cons_of_mem _ hx)
          simp only [progressEmits, List.length_cons, ih hrest (i + 1),
            List.range_succ_eq_map, List.map_cons, List.map_map]
          congr 1
          refine List.map_congr_left (fun k _ => ?_)
          have hik : i + 1 + k = i + (k + 1) := by omega
          simp [Function.comp, hik]

/-- C8 (amended): each successfully processed image `i` of `n` emits the
progress value `int((i + 1) / n * 100)`; an image whose processing raises an
exception emits no progress value, so the emitted progress sequence is the
subsequence at the successful indices — nondecreasing, and ending in `100`
whenever every image (in particular the last) is processed successfully —
and afterwards `finished` is emitted exactly once, as the last signal,
carrying the path of the written CSV file. -/
theorem run_emits_progress_then_finished (inputs : List ImgInput) (outputDir : String)
    (hne : inputs ≠ []) :
    (runEmits inputs outputDir).countP isFinished = 1
    ∧ (runEmits inputs outputDir).getLast? = some (.finished (csvPath outputDir))
    ∧ (runEmits inputs outputDir)
        = (progressEmits inputs.length 0 inputs).map Emit.progress
          ++ [Emit.finished (csvPath outputDir)]
    ∧ (progressEmits inputs.length 0 inputs).Chain' (· ≤ ·)
    ∧ ((∀ inp ∈ inputs, inp.outcome ≠ none) →
        (progressEmits inputs.length 0 inputs).getLast? = some 100) := by
  refine ⟨?_, ?_, rfl, progressEmits_chain, ?_⟩
  · simp [runEmits, List.countP_append, List.countP_map, Function.comp, isFinished,
      List.countP_cons]
  · rw [runEmits]
    exact List.getLast?_concat _
  · intro hok
    obtain ⟨inp0, rest, rfl⟩ := List.exists_cons_of_ne_nil hne
    rw [progressEmits_allOk hok 0]
    simp only [List.length_cons, List.range_succ, List.map_append, List.map_cons,
      List.map_nil]
    rw [List.getLast?_concat]
    simp only [Nat.zero_add, pyProgress]
    rw [Nat.mul_div_cancel _ (by omega)]

/-- Witness for C8 (amended) at a concrete two-image input. -/
theorem run_emits_progress_then_finished_witness :
    ([⟨"a_T1", some "2.0"⟩, ⟨"b_T2", some "3.0"⟩] : List ImgInput) ≠ []
    ∧ (∀ inp ∈ ([⟨"a_T1", some "2.0"⟩, ⟨"b_T2", some "3.0"⟩] : List ImgInput),
        inp.outcome ≠ none)
    ∧ (runEmits [⟨"a_T1", some "2.0"⟩, ⟨"b_T2", some "3.0"⟩] "results/output").countP
        isFinished = 1
    ∧ (runEmits [⟨"a_T1", some "2.0"⟩, ⟨"b_T2", some "3.0"⟩] "results/output").getLast?
        = some (.finished (csvPath "results/output"))
    ∧ (progressEmits 2 0 [⟨"a_T1", some "2.0"⟩, ⟨"b_T2", some "3.0"⟩]).Chain' (· ≤ ·)
    ∧ (progressEmits 2 0 [⟨"a_T1", some "2.0"⟩, ⟨"b_T2", some "3.0"⟩]).getLast? = some 100 :=
  have h := run_emits_progress_then_finished
    [⟨"a_T1", some "2.0"⟩, ⟨"b_T2", some "3.0"⟩] "results/output" (by decide)
  ⟨by decide, by decide, h.1, h.2.1, h.2.2.2.1, h.2.2.2.2 (by decide)⟩

/-- C8 counterexample: with one input image whose processing raises an
exception, `run` emits no progress value at all (so the final emitted
progress value is not `100`, and the claimed emission sequence — a progress
value for every index, then `finished` — is not what is emitted). -/
theorem run_emits_missing_progress :
    runEmits [⟨"root_T7_L1", none⟩] "results/output"
      ≠ (List.range 1).map (fun i => Emit.progress (pyProgress 1 i))
        ++ [Emit.finished (csvPath "results/output")] := by
  decide

/-- C3 (amended): the results are written to the file `root_lengths.csv`
(in the parent of the output directory), with the header row
`Image, Tube, Position, Date, Time, Length (mm)`, and the data rows sorted
in nondecreasing order by the key `(Tube, Date, Time, Position)`, where a
Tube or Position that is missing *or equal to 0* compares as `+∞` (Python's
`x or float("inf")` treats `0` as falsy) and a missing Date or Time compares
as the empty string. -/
theorem root_lengths_csv_sorted (inputs : List ImgInput) (outputDir : String) :
    csvTable inputs = csvHeaders :: (sortedResults inputs).map renderRow
    ∧ csvHeaders = ["Image", "Tube", "Position", "Date", "Time", "Length (mm)"]
    ∧ (sortedResults inputs).Pairwise codeLe
    ∧ csvPath outputDir = PyPath.dirname outputDir ++ "/" ++ csvFileName := by
  refine ⟨rfl, rfl, ?_, rfl⟩
  exact List.sorted_insertionSort codeLe (inputs.map processImage)

/-- C3 counterexample: two images whose names parse to tube numbers `1` and
`0`.  The code treats the parsed tube number `0` as falsy and sorts that row
as `+∞`, so the written rows are *not* in nondecreasing order by the claimed
key, under which `Tube 0` precedes `Tube 1`. -/
theorem tube_zero_breaks_claimed_order :
    ¬ (sortedResults [⟨"root_T1", some "5.0"⟩, ⟨"root_T0", some "7.0"⟩]).Pairwise claimLe := by
  decide

end RootLength

namespace DashServer

/-- Keyword arguments of a `app.run_server(...)` call. -/
structure RunServerCall where
  debug : Bool
  port : Nat
  threaded : Bool

/-- `DashApp.run_server` in `src/dash_app.py`:
`self.app.run_server(debug=True, port=8050, threaded=True, processes=1)`. -/
def dashAppRunServer : RunServerCall :=
  { debug := true, port := 8050, threaded := true }

/-- `RootLengthVisualization.run_dash_app` in `src/root_length_visulization.py`:
`self.app.run_server(debug=False, port=8050, threaded=True)`. -/
def visualizationRunServer : RunServerCall :=
  { debug := false, port := 8050, threaded := true }

/-- URL loaded into the embedded `QWebEngineView` by
`RootLengthVisualization.setup_pyqt_ui`. -/
def webViewUrl : String := "http://localhost:8050"

/-- C7: both launches of the embedded Dash server bind to local port 8050,
and the embedded `QWebEngineView` loads `http://localhost:8050`. -/
theorem dash_port_8050 :
    dashAppRunServer.port = 8050
    ∧ visualizationRunServer.port = 8050
    ∧ webViewUrl = "http://localhost:" ++ toString visualizationRunServer.port :=
  ⟨rfl, rfl, rfl⟩

end DashServer
